import Mathlib

/-!
Verification of the seifrng core against its natural-language specification.

The definitions below are a shallow embedding of the C++ sources:
* `QTIsaac` — the modified ISAAC-32 engine of `isaac.hpp`
  (ALPHA = 8, N = 256, `T = uint32_t`); machine words are `Nat` reduced
  `% 2^32` wherever the C++ arithmetic can wrap.
* `IsaacRandomPool` — `GenerateBlock` of `isaacRandomPool.cpp`; the SHA3-256
  compression itself is an opaque parameter `hash` (an external Crypto++
  primitive), everything around it is modelled.
* `SeedGenerator` — `seedGenerator.h` / `seedGenerator.cpp`; the rolling
  SHA3-512 contexts are modelled by the byte streams absorbed so far, and
  the `double` arithmetic of the entropy estimates by exact rationals
  (every constant involved is dyadic).
* `InterfaceOSRNG` — `appendData` / `bitEntropy` of `interfaceOSRNG`.
* `FileCryptopp` — `writeFile` of `fileCryptopp.cpp` over an abstract
  one-file filesystem (`Option (List Nat)` is the file's byte content),
  with the AES-GCM encryption an opaque parameter.

File contents and token streams are modelled at the level the C++ stream
iterators see them: `saveStateToFile` produces the list of decimal tokens
written, `loadStateFromFile` consumes the list of tokens parsed back.
-/

namespace QTIsaac

/-- `2^32`, the modulus of the engine's `uint32_t` arithmetic. -/
def U32 : Nat := 4294967296

/-- `N = 1 << ALPHA` with `ALPHA = 8`, the engine's word-array size. -/
def N : Nat := 256

/-- The `randctx` record of `isaac.hpp`: counter, the two `N`-word arrays
`randrsl` and `randmem`, and the three registers. -/
structure RandCtx where
  randcnt : Nat
  randrsl : List Nat
  randmem : List Nat
  randa : Nat
  randb : Nat
  randc : Nat
  deriving Repr, DecidableEq

/-- `ind(mm, x)`: byte-offset indirection `mm[(x & ((N-1)<<2)) >> 2]`. -/
def ind (mm : List Nat) (x : Nat) : Nat :=
  mm.getD ((x >>> 2) % N) 0

/-- One `rngstep`: `mIdx`, `m2Idx`, `rIdx` are the positions the pointers
`m`, `m2`, `r` have reached.  Returns the updated `(a, b, mm, r)`. -/
def rngstep (mix a b : Nat) (mm : List Nat) (mIdx m2Idx rIdx : Nat)
    (r : List Nat) : Nat × Nat × List Nat × List Nat :=
  let x := mm.getD mIdx 0
  let a' := ((a ^^^ mix) + mm.getD m2Idx 0) % U32
  let y := (ind mm x + a' + b) % U32
  let mm' := mm.set mIdx y
  let b' := (ind mm' (y >>> 8) + x) % U32
  (a', b', mm', r.set rIdx b')

/-- The mix parameter of the `k`-th `rngstep` of a half-loop:
`(a<<13), (a>>6), (a<<2), (a>>16)` cycling with period 4. -/
def mixOf (k a : Nat) : Nat :=
  if k % 4 = 0 then (a <<< 13) % U32
  else if k % 4 = 1 then a >>> 6
  else if k % 4 = 2 then (a <<< 2) % U32
  else a >>> 16

/-- One step of a half-loop of `isaac`: at step `k` the `m` pointer is at
`moff + k`, the `m2` pointer at `m2off + k` and `r` at `roff + k`. -/
def halfStep (moff m2off roff : Nat)
    (st : Nat × Nat × List Nat × List Nat) (k : Nat) :
    Nat × Nat × List Nat × List Nat :=
  let a := st.1
  let b := st.2.1
  let mm := st.2.2.1
  let r := st.2.2.2
  rngstep (mixOf k a) a b mm (moff + k) (m2off + k) (roff + k) r

/-- The `isaac(ctx)` round: `++randc`, `b = randb + randc`, two half-loops
of `N/2` steps, then write back `a` and `b`. -/
def isaac (ctx : RandCtx) : RandCtx :=
  let c := (ctx.randc + 1) % U32
  let st0 : Nat × Nat × List Nat × List Nat :=
    (ctx.randa, (ctx.randb + c) % U32, ctx.randmem, ctx.randrsl)
  let st1 := (List.range (N / 2)).foldl (halfStep 0 (N / 2) 0) st0
  let st2 := (List.range (N / 2)).foldl (halfStep (N / 2) 0 (N / 2)) st1
  { randcnt := ctx.randcnt
    randrsl := st2.2.2.2
    randmem := st2.2.2.1
    randa := st2.1
    randb := st2.2.1
    randc := c }

/-- The engine: a `randctx` plus the `_initialized` flag of the modified
`QTIsaac` class (the identifier and key live at the call sites we model). -/
structure Engine where
  ctx : RandCtx
  initialized : Bool
  deriving Repr, DecidableEq

/-- `rand()`: returns 0 on an uninitialised engine; otherwise dispenses
`randrsl[--randcnt]`, running `isaac` and resetting `randcnt = N-1` when
the counter was 0 (the `!randcnt--` post-decrement of the source). -/
def rand (e : Engine) : Nat × Engine :=
  if e.initialized = false then (0, e)
  else if e.ctx.randcnt = 0 then
    let c' := isaac e.ctx
    (c'.randrsl.getD (N - 1) 0,
      { e with ctx := { c' with randcnt := N - 1 } })
  else
    let cnt := e.ctx.randcnt - 1
    (e.ctx.randrsl.getD cnt 0,
      { e with ctx := { e.ctx with randcnt := cnt } })

/-- `k` successive `rand()` draws, first draw first. -/
def randN : Engine → Nat → List Nat × Engine
  | e, 0 => ([], e)
  | e, k + 1 =>
    let p := rand e
    let q := randN p.2 k
    (p.1 :: q.1, q.2)

/-- The token stream `saveStateToFile` writes: `randcnt`, the `N` words of
`randrsl`, the `N` words of `randmem`, then `randa, randb, randc` —
`2N + 4` tokens in this order. -/
def saveStateTokens (c : RandCtx) : List Nat :=
  c.randcnt :: (c.randrsl ++ c.randmem ++ [c.randa, c.randb, c.randc])

/-- The state `loadStateFromFile` installs from a parsed token list:
`randcnt` from index 0, `randrsl` from `[1, 1+N)`, `randmem` from
`[1+N, 1+2N)`, and the registers from indices `1+N+N+1`, `1+N+N+2`,
`1+N+N+3` — exactly the offsets of the source, which skip index `1+N+N`.
(The source reads through raw iterators; `getD _ 0` stands for those
reads and is only meaningful while they are in bounds, i.e. for token
lists of length at least `2N + 5`.) -/
def installedState (ts : List Nat) : RandCtx :=
  { randcnt := ts.getD 0 0
    randrsl := (ts.drop 1).take N
    randmem := (ts.drop (1 + N)).take N
    randa := ts.getD (1 + N + N + 1) 0
    randb := ts.getD (1 + N + N + 2) 0
    randc := ts.getD (1 + N + N + 3) 0 }

/-- `loadStateFromFile`: `-1` if the state file does not exist, `-2` if
reading/decrypting it fails, otherwise `0` with the installed state.
`fileOK` models `fileDecryptor.fileExists()`, `readOK` models
`fileDecryptor.readFile(...)`, and `ts` the tokens
`istream_iterator<uint32_t>` parses out of the decrypted stream.  No
other check is performed before the state is installed. -/
def loadStateFromFile (fileOK readOK : Bool) (ts : List Nat) :
    Int × Option RandCtx :=
  if fileOK = false then (-1, none)
  else if readOK = false then (-2, none)
  else (0, some (installedState ts))

/-- `file.find_last_of('/')`: the index of the last `/` of the string,
`none` for `npos`. -/
def lastSlashIdx : List Char → Option Nat
  | [] => none
  | c :: cs =>
    match lastSlashIdx cs with
    | some i => some (i + 1)
    | none => if c = '/' then some 0 else none

/-- `getValidFile`: no `/` in `file` prepends `./`; otherwise
`filename = file.substr(pos)` (which still starts with the `/` at `pos`),
`path = file.substr(0, pos)`, `filename` is cut to its first 32 bytes
when longer, and the result is `path + filename`. -/
def getValidFile (file : List Char) : List Char :=
  match lastSlashIdx file with
  | none => '.' :: '/' :: file
  | some pos =>
    let filename := file.drop pos
    let path := file.take pos
    let filename' := if filename.length > 32 then filename.take 32 else filename
    path ++ filename'

end QTIsaac

namespace IsaacRandomPool

/-- The error `GenerateBlock` throws when the engine is uninitialised
(`std::runtime_error("RNG has not been initialized.")`). -/
inductive Err where
  | rngUninitialised
  deriving Repr, DecidableEq

/-- `int32toBytes`: serialise each 32-bit word into four bytes,
little-endian (`byte j = (w >> 8j) & 0xFF`). -/
def int32toBytes (ws : List Nat) : List Nat :=
  ws.flatMap fun w => [w % 256, (w >>> 8) % 256, (w >>> 16) % 256, (w >>> 24) % 256]

/-- The first loop of `GenerateBlock`: draw `numHashes` chunks of 128
successive engine words each. -/
def drawChunks : QTIsaac.Engine → Nat → List (List Nat) × QTIsaac.Engine
  | e, 0 => ([], e)
  | e, j + 1 =>
    let p := QTIsaac.randN e 128
    let q := drawChunks p.2 j
    (p.1 :: q.1, q.2)

/-- The copy loop of `GenerateBlock` over the per-chunk digests: a digest
is copied whole unless `total + digest.size() > size`, in which case only
the remaining `size - total` bytes are copied and the loop breaks. -/
def copyDigests : List (List Nat) → Nat → Nat → List Nat
  | [], _, _ => []
  | d :: rest, size, total =>
    if total + d.length > size then d.take (size - total)
    else d ++ copyDigests rest size (total + d.length)

/-- `numHashes = (size % 32) ? size/32 + 1 : size/32`. -/
def numHashes (size : Nat) : Nat :=
  if size % 32 ≠ 0 then size / 32 + 1 else size / 32

/-- `IsaacRandomPool::GenerateBlock`: throws `rngUninitialised` on an
uninitialised engine; returns no bytes for `size = 0`; otherwise draws
`numHashes` chunks of 128 words, hashes each chunk's little-endian byte
serialisation with SHA3-256 (`hash`, opaque: the Crypto++ primitive),
and copies the digests into the output through `copyDigests`. -/
def GenerateBlock (hash : List Nat → List Nat) (e : QTIsaac.Engine)
    (size : Nat) : Except Err (List Nat × QTIsaac.Engine) :=
  if e.initialized = false then .error .rngUninitialised
  else if size = 0 then .ok ([], e)
  else
    let p := drawChunks e (numHashes size)
    let digests := p.1.map fun ws => hash (int32toBytes ws)
    .ok (copyDigests digests size 0, p.2)

end IsaacRandomPool

namespace SeedGenerator

/-- The SeedGenerator: `_digests` (64-byte SHA3-512 digests once
finalised), the rolling hash contexts `_hashVec` (modelled by the byte
stream each context has absorbed so far), `_numDivs` and `_seedReady`. -/
structure St where
  digests : List (List Nat)
  hashVec : List (List Nat)
  numDivs : Nat
  seedReady : Bool
  deriving Repr, DecidableEq

/-- The term modulus of the C++ term type `T`: `2^(8·sizeof(T))`. -/
def termMod (numBytes : Nat) : Nat := 2 ^ (8 * numBytes)

/-- One term of `groupBytes`: `numBytes` successive bytes folded MSB-first
by `*out = (*out << 8) + *begin', in `T`'s modular arithmetic. -/
def termOf (numBytes : Nat) (chunk : List Nat) : Nat :=
  chunk.foldl (fun acc b => ((acc <<< 8) % termMod numBytes + b) % termMod numBytes) 0

/-- `groupBytes(begin, end, out, numBytes)`: while the byte range is not
exhausted, build one term from the next `numBytes` bytes and advance.
(The source advances `begin` exactly `numBytes` bytes per term and
compares `begin != end` only between terms, so it is defined only when
`numBytes` divides the length of the range; this model consumes the
range in `numBytes` strides and agrees with the source on that domain.) -/
def groupBytesAux (numBytes : Nat) : Nat → List Nat → List Nat
  | _, [] => []
  | 0, _ :: _ => []
  | fuel + 1, b :: bs =>
    termOf numBytes ((b :: bs).take numBytes)
      :: groupBytesAux numBytes fuel (bs.drop (numBytes - 1))

/-- Entry point of `groupBytes`: the range can hold at most `|bs|` terms,
so `|bs|` steps of the loop always suffice on the domain where the
source's loop terminates (`numBytes ≥ 1` dividing the range length). -/
def groupBytes (numBytes : Nat) (bs : List Nat) : List Nat :=
  groupBytesAux numBytes bs.length bs

/-- The digest loop of `copySeed`: a digest whose `possibleGroups` exceed
the remaining `len` contributes only the byte range `[begin, begin+len)`
(the source advances `endIt` by `len` bytes, not `len` terms) and the
loop breaks; otherwise the whole digest is grouped and `len` drops by
`possibleGroups`. -/
def copySeedLoop (possibleGroups numBytes : Nat) :
    List (List Nat) → Nat → List Nat
  | [], _ => []
  | d :: rest, len =>
    if possibleGroups > len then groupBytes numBytes (d.take len)
    else groupBytes numBytes d ++ copySeedLoop possibleGroups numBytes rest (len - possibleGroups)

/-- `copySeed(seed, len)` for a term type of `numBytes = sizeof(T)`:
returns the list of terms written into `seed` and the updated generator.
Guards in source order: `_seedReady`; `numBytes` a power of two
(`numBytes & (numBytes-1)`); `len` at most
`possibleGroups * _digests.size()` with
`possibleGroups = _digests[0].size() / numBytes`.  After the copy loop,
`_seedReady` is cleared. -/
def copySeed (sg : St) (numBytes len : Nat) : List Nat × St :=
  if sg.seedReady = false then ([], sg)
  else if numBytes &&& (numBytes - 1) ≠ 0 then ([], sg)
  else
    let possibleGroups := (sg.digests.headD []).length / numBytes
    if len > possibleGroups * sg.digests.length then ([], sg)
    else (copySeedLoop possibleGroups numBytes sg.digests len,
      { sg with seedReady := false })

/-- The number of set bits among the low `fuel` bits of `n`. -/
def bitCountAux : Nat → Nat → Nat
  | 0, _ => 0
  | fuel + 1, n => n % 2 + bitCountAux fuel (n / 2)

/-- The static `byteBitProbs` table: the probability of a set bit in byte
`b`, i.e. `popcount(b) / 8` — `probability(255) = 1, probability(0) = 0`,
in steps of `0.125` exactly as the 256-entry table of the source. -/
def byteBitProbs (b : Nat) : ℚ :=
  (bitCountAux 8 b : ℚ) / 8

/-- `entropy(begin, end)`: the mean over the range of `byteBitProbs`,
strictly above `ENTROPYTHRESHOLD = 0.25`.  The `double` accumulation of
the source is modelled exactly over `ℚ` (all table entries are dyadic). -/
def entropy (bs : List Nat) : Bool :=
  decide ((bs.map byteBitProbs).sum / (bs.length : ℚ) > 1 / 4)

/-- The slice loop of `processFromSource`: the first `numDivs - 1` hash
contexts absorb `stepSize`-byte slices, the last absorbs
`stepSize + excess` bytes; a slice failing the byte-entropy check stops
the loop with `false`, the earlier contexts keeping what they already
absorbed. -/
def processSlices (stepSize excess : Nat) :
    List (List Nat) → List Nat → Bool × List (List Nat)
  | [], _ => (true, [])
  | [h], buf =>
    if entropy (buf.take (stepSize + excess)) then
      (true, [h ++ buf.take (stepSize + excess)])
    else (false, [h])
  | h :: h' :: rest, buf =>
    if entropy (buf.take stepSize) then
      let q := processSlices stepSize excess (h' :: rest) (buf.drop stepSize)
      (q.1, (h ++ buf.take stepSize) :: q.2)
    else (false, h :: h' :: rest)

/-- A `RandomSource` as `processFromSource` consumes it: the vector
`bitEntropy()` returns and the byte buffer `appendData` drains. -/
structure Source where
  bitE : List ℚ
  data : List Nat
  deriving DecidableEq

/-- `processFromSource(src)`: refuse while `_seedReady`; refuse when the
mean of `src.bitEntropy()` is below `0.25`; otherwise drain the source,
split its bytes into `numDivs` slices (`stepSize = |buf| / numDivs`, the
last slice also taking the `|buf| % numDivs` excess bytes) and absorb
them into the rolling hashes slice by slice.  Returns the success flag,
the updated generator and the updated source. -/
def processFromSource (sg : St) (src : Source) : Bool × St × Source :=
  if sg.seedReady = true then (false, sg, src)
  else if src.bitE.sum / (src.bitE.length : ℚ) < 1 / 4 then (false, sg, src)
  else
    let buf := src.data
    let src' : Source := { bitE := [], data := [] }
    let stepSize := buf.length / sg.numDivs
    let excess := buf.length % sg.numDivs
    let q := processSlices stepSize excess sg.hashVec buf
    (q.1, { sg with hashVec := q.2 }, src')

end SeedGenerator

namespace InterfaceOSRNG

/-- The OS entropy source: the accumulated bytes `_osrngData` and the bit
occurrence counts `_bitEntropy` (a `double` per bit position; the counts
are integers, modelled exactly over `ℚ`). -/
structure St where
  osrngData : List Nat
  bitEntropy : List ℚ
  deriving DecidableEq

/-- The constructor: no data, and `_bitEntropy(8, 0.0f)` — eight zero
occurrence counts, one per bit of a byte sample. -/
def mkOSRNG : St :=
  { osrngData := [], bitEntropy := List.replicate 8 0 }

/-- `appendData(data)`: append `_osrngData` to `data`, then clear both
`_osrngData` and `_bitEntropy` (`std::vector::clear`, leaving them
empty). -/
def appendData (st : St) (data : List Nat) : List Nat × St :=
  (data ++ st.osrngData, { osrngData := [], bitEntropy := [] })

/-- `bitEntropy()`: divide each occurrence count by the number of recorded
bytes (by 1 when `|_osrngData| < 0.01`, i.e. when no bytes are held) and
return the resulting vector — its length is whatever `_bitEntropy`
currently holds. -/
def bitEntropyOf (st : St) : List ℚ :=
  let normalizer : ℚ := if (st.osrngData.length : ℚ) < 1 / 100 then 1
    else (st.osrngData.length : ℚ)
  st.bitEntropy.map fun v => v / normalizer

end InterfaceOSRNG

namespace FileCryptopp

/-- `AESNODE_DEFAULT_KEY_LENGTH_BYTES = 32`. -/
def AESNODE_DEFAULT_KEY_LENGTH_BYTES : Nat := 32

/-- `writeFile(ss, key)` over a one-file filesystem whose current content
is `prior` (`none` = no file).  Constructing the `std::ofstream` opens
the path for writing and truncates it; `openOK` models whether that open
succeeds (on failure nothing is written).  Then, and only then, a
non-empty key of length ≠ 32 is refused; a valid key writes the AES-GCM
ciphertext `enc ss key` (`enc`/`encOK` model the opaque Crypto++
encryption and its failure path); an empty key writes `ss` raw. -/
def writeFile (enc : List Nat → List Nat → List Nat) (encOK : Bool)
    (openOK : Bool) (prior : Option (List Nat)) (ss key : List Nat) :
    Bool × Option (List Nat) :=
  if openOK = false then (false, prior)
  else
    let truncated : Option (List Nat) := some []
    if key ≠ [] then
      if key.length ≠ AESNODE_DEFAULT_KEY_LENGTH_BYTES then (false, truncated)
      else if encOK = false then (false, truncated)
      else (true, some (enc ss key))
    else (true, some ss)

end FileCryptopp

/-! Concrete instances used by the witnesses and counterexamples below. -/

/-- A concrete initialised `randctx` with distinct register values. -/
def ctx0 : QTIsaac.RandCtx :=
  { randcnt := 7
    randrsl := List.replicate 256 11
    randmem := List.replicate 256 22
    randa := 1
    randb := 2
    randc := 3 }

/-- A concrete initialised engine. -/
def eng0 : QTIsaac.Engine := { ctx := ctx0, initialized := true }

/-- A concrete uninitialised engine. -/
def engU : QTIsaac.Engine := { ctx := ctx0, initialized := false }

/-- A stand-in for the opaque SHA3-256: some fixed 32-byte digest. -/
def hash0 : List Nat → List Nat := fun _ => List.replicate 32 9

/-- A concrete seed generator with `N = 16` partitions, seed ready, and
16 finalised 64-byte digests (bytes `0..63` in each). -/
def sg0 : SeedGenerator.St :=
  { digests := List.replicate 16 (List.range 64)
    hashVec := List.replicate 16 []
    numDivs := 16
    seedReady := true }

/-- A concrete source with some accumulated entropy statistics. -/
def src0 : SeedGenerator.Source :=
  { bitE := [1, 1, 1, 1, 1, 1, 1, 1], data := [170, 85, 170, 85] }

/-- A 517-token stream: one more token than the `2N + 4 = 516` the state
record comprises. -/
def tokens517 : List Nat := List.replicate 517 5

/-- A path whose filename component after the last `/` is exactly 32
bytes long. -/
def path32 : List Char := "a/0123456789012345678901234567890A".toList

/-- A stand-in for the opaque AES-GCM encryption. -/
def encId : List Nat → List Nat → List Nat := fun s _ => s

/-! Theorems. -/

open QTIsaac IsaacRandomPool SeedGenerator InterfaceOSRNG FileCryptopp

/-- Lengths of the two word arrays of `ctx0`. -/
theorem ctx0_lengths : ctx0.randrsl.length = 256 ∧ ctx0.randmem.length = 256 :=
  ⟨List.length_replicate _ _, List.length_replicate _ _⟩

/-- Element `1 + N + k` of a save token stream reaches into the trailing
`randmem ++ [randa, randb, randc]` block at offset `k`. -/
theorem saveStateTokens_getD_tail (c : RandCtx) (k : Nat)
    (h1 : c.randrsl.length = 256) :
    (saveStateTokens c).getD (1 + 256 + k) 0
      = (c.randmem ++ [c.randa, c.randb, c.randc]).getD k 0 := by
  simp only [saveStateTokens, List.getD]
  have e1 : (1 + 256 + k) = (256 + k) + 1 := by omega
  rw [e1, List.get?_cons_succ, List.append_assoc,
    List.get?_append_right (by omega)]
  rw [show 256 + k - c.randrsl.length = k from by omega]

/-- Reloading a saved token stream puts the saved `randb` into `randa`. -/
theorem installedState_save_randa (c : RandCtx)
    (h1 : c.randrsl.length = 256) (h2 : c.randmem.length = 256) :
    (installedState (saveStateTokens c)).randa = c.randb := by
  show (saveStateTokens c).getD (1 + 256 + (256 + 1)) 0 = c.randb
  rw [saveStateTokens_getD_tail c (256 + 1) h1]
  simp only [List.getD]
  rw [List.get?_append_right (by omega)]
  rw [show 256 + 1 - c.randmem.length = 1 from by omega]
  rfl

/-- Reloading a saved token stream puts the saved `randc` into `randb`. -/
theorem installedState_save_randb (c : RandCtx)
    (h1 : c.randrsl.length = 256) (h2 : c.randmem.length = 256) :
    (installedState (saveStateTokens c)).randb = c.randc := by
  show (saveStateTokens c).getD (1 + 256 + (256 + 2)) 0 = c.randc
  rw [saveStateTokens_getD_tail c (256 + 2) h1]
  simp only [List.getD]
  rw [List.get?_append_right (by omega)]
  rw [show 256 + 2 - c.randmem.length = 2 from by omega]
  rfl

/-- C1 (amended): saving then re-loading the state restores `randcnt`,
`randrsl` and `randmem` bitwise, but loads `randa` from the token the
writer placed in the `randb` slot and `randb` from the `randc` slot (the
load offsets skip index `1 + N + N`; the `randc` read is past the end of
the 516-token record and is unspecified), so the reloaded registers are
shifted, not restored. -/
theorem save_load_restores_arrays_shifts_registers (c : RandCtx)
    (h1 : c.randrsl.length = 256) (h2 : c.randmem.length = 256) :
    (installedState (saveStateTokens c)).randcnt = c.randcnt ∧
    (installedState (saveStateTokens c)).randrsl = c.randrsl ∧
    (installedState (saveStateTokens c)).randmem = c.randmem ∧
    (installedState (saveStateTokens c)).randa = c.randb ∧
    (installedState (saveStateTokens c)).randb = c.randc := by
  refine ⟨rfl, ?_, ?_, installedState_save_randa c h1 h2,
    installedState_save_randb c h1 h2⟩
  · show ((saveStateTokens c).drop 1).take 256 = c.randrsl
    simp only [saveStateTokens, List.drop_succ_cons, List.drop_zero]
    rw [List.append_assoc, List.take_left' h1]
  · show ((saveStateTokens c).drop (1 + 256)).take 256 = c.randmem
    simp only [saveStateTokens]
    rw [show (1 : Nat) + 256 = 256 + 1 from rfl, List.drop_succ_cons,
      List.append_assoc, List.drop_left' h1, List.take_left' h2]

/-- C1 counterexample: for the concrete state `ctx0` (whose `randa = 1`,
`randb = 2`), the reloaded `randa` is the saved `randb = 2`, not the
saved `randa`. -/
theorem save_load_randa_not_restored :
    (installedState (saveStateTokens ctx0)).randa ≠ ctx0.randa := by
  rw [installedState_save_randa ctx0 ctx0_lengths.1 ctx0_lengths.2]
  decide

/-- C1 witness: the amended round-trip at the concrete state `ctx0`. -/
theorem save_load_restores_arrays_shifts_registers_witness :
    ctx0.randrsl.length = 256 ∧ ctx0.randmem.length = 256 ∧
    ((installedState (saveStateTokens ctx0)).randcnt = ctx0.randcnt ∧
     (installedState (saveStateTokens ctx0)).randrsl = ctx0.randrsl ∧
     (installedState (saveStateTokens ctx0)).randmem = ctx0.randmem ∧
     (installedState (saveStateTokens ctx0)).randa = ctx0.randb ∧
     (installedState (saveStateTokens ctx0)).randb = ctx0.randc) :=
  ⟨ctx0_lengths.1, ctx0_lengths.2,
    save_load_restores_arrays_shifts_registers ctx0
      ctx0_lengths.1 ctx0_lengths.2⟩

/-- C2 counterexample: a decryptable state file of 517 tokens — one more
than the `2N + 4 = 516` of the state record — is not refused:
`loadStateFromFile` reports success (`0`) and installs the tokens. -/
theorem loadState_accepts_517_tokens :
    tokens517.length ≠ 2 * N + 4 ∧
    loadStateFromFile true true tokens517
      = (0, some (installedState tokens517)) := by
  constructor
  · rw [show tokens517.length = 517 from List.length_replicate _ _]
    decide
  · rfl

/-- C2 (amended): `loadStateFromFile` performs no token-count validation.
Its only refusals are a missing file (`-1`) and a failed read/decryption
(`-2`); any token stream from a readable, decryptable file — here one of
at least `2N + 5` tokens, so that every fixed-offset read is in bounds —
is installed as engine state with success status `0`. -/
theorem loadState_no_token_count_check (ts : List Nat)
    (_h : 2 * N + 5 ≤ ts.length) :
    loadStateFromFile true true ts = (0, some (installedState ts)) ∧
    loadStateFromFile false true ts = (-1, none) ∧
    loadStateFromFile true false ts = (-2, none) :=
  ⟨rfl, rfl, rfl⟩

/-- C2 witness: the amended behaviour at the concrete 517-token stream. -/
theorem loadState_no_token_count_check_witness :
    2 * N + 5 ≤ tokens517.length ∧
    (loadStateFromFile true true tokens517
        = (0, some (installedState tokens517)) ∧
      loadStateFromFile false true tokens517 = (-1, none) ∧
      loadStateFromFile true false tokens517 = (-2, none)) :=
  ⟨by rw [show tokens517.length = 517 from List.length_replicate _ _]; decide,
    loadState_no_token_count_check tokens517
      (by rw [show tokens517.length = 517 from List.length_replicate _ _]; decide)⟩

/-- The first loop of `GenerateBlock` draws exactly as many 128-word
chunks as requested. -/
theorem drawChunks_length (e : QTIsaac.Engine) (j : Nat) :
    (drawChunks e j).1.length = j := by
  induction j generalizing e with
  | zero => rfl
  | succ k ih => simp [drawChunks, ih]

/-- The copy loop of `GenerateBlock` emits exactly `size - total` bytes
when every digest is 32 bytes and enough digests are supplied. -/
theorem copyDigests_length (ds : List (List Nat)) (size total : Nat)
    (h32 : ∀ d ∈ ds, d.length = 32) (hts : total ≤ size)
    (hub : size ≤ total + 32 * ds.length) :
    (copyDigests ds size total).length = size - total := by
  induction ds generalizing total with
  | nil =>
    simp only [copyDigests, List.length_nil]
    simp only [List.length_nil, Nat.mul_zero, Nat.add_zero] at hub
    omega
  | cons d rest ih =>
    have hd : d.length = 32 := h32 d (List.mem_cons_self d rest)
    simp only [List.length_cons] at hub
    simp only [copyDigests]
    by_cases hc : total + d.length > size
    · simp only [hc, if_pos]
      rw [List.length_take]
      omega
    · rw [if_neg hc, List.length_append]
      rw [ih (total + d.length)
        (fun x hx => h32 x (List.mem_cons_of_mem d hx))
        (by omega) (by omega)]
      omega

/-- The chunk count covers the requested size: `size ≤ 32 · numHashes`. -/
theorem numHashes_covers (size : Nat) : size ≤ 32 * numHashes size := by
  unfold numHashes
  have hdm := Nat.div_add_mod size 32
  have hlt : size % 32 < 32 := Nat.mod_lt _ (by omega)
  by_cases h : size % 32 = 0
  · rw [if_neg (not_not_intro h)]
    omega
  · rw [if_pos h]
    omega

/-- C3: on an initialised pool, `GenerateBlock` returns exactly `size`
bytes for every requested `size` (each 32-byte digest is copied whole
except the last, which is truncated to the remaining bytes), provided
the hash really is 32 bytes wide, as SHA3-256 is. -/
theorem GenerateBlock_writes_exactly_size (hash : List Nat → List Nat)
    (e : QTIsaac.Engine) (size : Nat)
    (hinit : e.initialized = true)
    (hh : ∀ bs, (hash bs).length = 32) :
    ∃ out e', GenerateBlock hash e size = .ok (out, e') ∧
      out.length = size := by
  unfold GenerateBlock
  rw [hinit]
  simp only [Bool.true_eq_false, if_false]
  by_cases hz : size = 0
  · subst hz
    exact ⟨[], e, rfl, rfl⟩
  · rw [if_neg hz]
    refine ⟨_, _, rfl, ?_⟩
    rw [copyDigests_length _ size 0 ?_ (Nat.zero_le _) ?_]
    · omega
    · intro d hd
      rcases List.mem_map.mp hd with ⟨ws, _, rfl⟩
      exact hh _
    · rw [List.length_map, drawChunks_length]
      have := numHashes_covers size
      omega

/-- C3 witness: 33 requested bytes from the concrete engine `eng0` with a
32-byte-wide hash stand-in. -/
theorem GenerateBlock_writes_exactly_size_witness :
    eng0.initialized = true ∧ (∀ bs, (hash0 bs).length = 32) ∧
    (∃ out e', GenerateBlock hash0 eng0 33 = .ok (out, e') ∧
      out.length = 33) :=
  ⟨rfl, fun _ => List.length_replicate _ _,
    GenerateBlock_writes_exactly_size hash0 eng0 33 rfl
      fun _ => List.length_replicate _ _⟩

/-- C4: on an uninitialised engine `rand()` returns 0 and leaves the
engine untouched (it never throws), while the pool-level `GenerateBlock`
fails with the `rngUninitialised` error instead of returning bytes. -/
theorem uninitialised_rand_zero_generateBlock_throws
    (hash : List Nat → List Nat) (e : QTIsaac.Engine) (size : Nat)
    (h : e.initialized = false) :
    QTIsaac.rand e = (0, e) ∧
    GenerateBlock hash e size = .error .rngUninitialised := by
  constructor
  · simp [QTIsaac.rand, h]
  · simp [GenerateBlock, h]

/-- C4 witness: the uninitialised guard at the concrete engine `engU`. -/
theorem uninitialised_rand_zero_generateBlock_throws_witness :
    engU.initialized = false ∧
    (QTIsaac.rand engU = (0, engU) ∧
      GenerateBlock hash0 engU 32 = .error .rngUninitialised) :=
  ⟨rfl, uninitialised_rand_zero_generateBlock_throws hash0 engU 32 rfl⟩

/-- C5 (code bug): `copySeed` is documented to write `len` seed terms, but
its partial-digest branch advances the end iterator by `len` bytes
rather than `len` terms.  At the concrete ready generator `sg0`
(N = 16 digests of 64 bytes) with 4-byte terms and `len = 8` — well
within the claimed bound `len ≤ N·(64/s) = 256` — it writes only 2
terms (the big-endian groupings of the first 8 digest bytes,
`0x00010203` and `0x04050607`), not 8, though it does clear
`seedReady`. -/
theorem copySeed_partial_digest_miscounts_terms :
    (copySeed sg0 4 8).1 = [66051, 67438087] ∧
    (copySeed sg0 4 8).1.length = 2 ∧
    (copySeed sg0 4 8).1.length ≠ 8 ∧
    (copySeed sg0 4 8).2.seedReady = false := by
  decide

/-- C6: with `N = 16` partitions and 64-byte digests, a request for more
than `16·(64/numBytes)` terms is refused before anything is written,
whatever the generator's flags. -/
theorem copySeed_refuses_overlong_len (sg : SeedGenerator.St)
    (numBytes len : Nat)
    (hn : sg.digests.length = 16)
    (hd : (sg.digests.headD []).length = 64)
    (hlen : len > 16 * (64 / numBytes)) :
    (copySeed sg numBytes len).1 = [] := by
  unfold copySeed
  by_cases hs : sg.seedReady = false
  · rw [if_pos hs]
  · rw [if_neg hs]
    by_cases hp : numBytes &&& (numBytes - 1) ≠ 0
    · rw [if_pos hp]
    · rw [if_neg hp]
      dsimp only
      rw [hd, hn, if_pos (by omega)]

/-- C6 witness: requesting 257 4-byte terms (capacity is 256) from the
concrete ready generator `sg0` writes nothing. -/
theorem copySeed_refuses_overlong_len_witness :
    sg0.digests.length = 16 ∧ (sg0.digests.headD []).length = 64 ∧
    (257 : Nat) > 16 * (64 / 4) ∧
    (copySeed sg0 4 257).1 = [] :=
  ⟨List.length_replicate _ _, List.length_range _, by decide,
    copySeed_refuses_overlong_len sg0 4 257
      (List.length_replicate _ _) (List.length_range _) (by decide)⟩

/-- C7: while `seedReady` is set, `processFromSource` fails at once: it
returns `false`, leaves the generator (in particular every rolling hash
context) unchanged, and does not touch the source. -/
theorem processFromSource_refuses_while_seedReady
    (sg : SeedGenerator.St) (src : Source)
    (h : sg.seedReady = true) :
    processFromSource sg src = (false, sg, src) := by
  unfold processFromSource
  rw [if_pos h]

/-- C7 witness: the refusal at the concrete ready generator `sg0` and
the concrete source `src0`. -/
theorem processFromSource_refuses_while_seedReady_witness :
    sg0.seedReady = true ∧
    processFromSource sg0 src0 = (false, sg0, src0) :=
  ⟨rfl, processFromSource_refuses_while_seedReady sg0 src0 rfl⟩

/-- C8 counterexample: after `appendData`, the OS source holds no samples,
yet `bitEntropy()` returns the empty vector — `_bitEntropy.clear()`
empties the occurrence table — not a length-8 vector of zeros. -/
theorem bitEntropy_empty_after_appendData :
    (appendData mkOSRNG []).2.osrngData = [] ∧
    bitEntropyOf (appendData mkOSRNG []).2 = [] ∧
    bitEntropyOf (appendData mkOSRNG []).2 ≠ List.replicate 8 (0 : ℚ) := by
  refine ⟨rfl, rfl, ?_⟩
  intro h
  exact absurd (congrArg List.length h) (by decide)

/-- C8 (amended): `appendData` drains the buffer into the destination and
leaves the source with no samples, its bit-occurrence table cleared to
the empty vector; `bitEntropy()` therefore returns `[]` after a drain,
while on a freshly constructed source holding no samples it returns the
length-8 zero vector. -/
theorem appendData_drains_bitEntropy_cleared
    (st : InterfaceOSRNG.St) (data : List Nat) :
    (appendData st data).1 = data ++ st.osrngData ∧
    (appendData st data).2.osrngData = [] ∧
    (appendData st data).2.bitEntropy = [] ∧
    bitEntropyOf (appendData st data).2 = [] ∧
    bitEntropyOf mkOSRNG = List.replicate 8 0 := by
  refine ⟨rfl, rfl, rfl, rfl, ?_⟩
  norm_num [bitEntropyOf, mkOSRNG, List.map_replicate]

/-- A successful `find_last_of('/')` result is in bounds and the string
from that position onwards starts with the `/` found. -/
theorem lastSlashIdx_spec (l : List Char) (pos : Nat)
    (h : lastSlashIdx l = some pos) :
    pos < l.length ∧ l.drop pos = '/' :: l.drop (pos + 1) := by
  induction l generalizing pos with
  | nil => exact absurd h (by simp [lastSlashIdx])
  | cons c cs ih =>
    unfold lastSlashIdx at h
    cases hcs : lastSlashIdx cs with
    | some i =>
      rw [hcs] at h
      simp only [Option.some.injEq] at h
      subst h
      obtain ⟨h1, h2⟩ := ih i hcs
      refine ⟨by simp only [List.length_cons]; omega, ?_⟩
      rw [List.drop_succ_cons, h2, List.drop_succ_cons]
    | none =>
      rw [hcs] at h
      by_cases hc : c = '/'
      · rw [if_pos hc] at h
        simp only [Option.some.injEq] at h
        subst h
        subst hc
        exact ⟨by simp, rfl⟩
      · rw [if_neg hc] at h
        exact absurd h (by simp)

/-- C9 (amended): with no `/` in the identifier, `./` is prepended and
the name kept whole; with a last `/` at `pos`, the directory part is
kept verbatim but the filename component after the `/` is truncated to
at most 31 bytes — the 32-byte cut is applied to `substr(pos)`, which
still contains the `/` itself. -/
theorem getValidFile_truncates_filename_to_31 (file : List Char) :
    (lastSlashIdx file = none → getValidFile file = '.' :: '/' :: file) ∧
    (∀ pos, lastSlashIdx file = some pos →
      getValidFile file
        = file.take pos ++ '/' :: (file.drop (pos + 1)).take 31) := by
  constructor
  · intro h
    unfold getValidFile
    rw [h]
  · intro pos h
    obtain ⟨hlt, hdrop⟩ := lastSlashIdx_spec file pos h
    unfold getValidFile
    rw [h]
    dsimp only
    rw [hdrop]
    by_cases hlen : (file.drop (pos + 1)).length + 1 > 32
    · rw [if_pos (by simp only [List.length_cons]; omega)]
      rw [show (32 : Nat) = 31 + 1 from rfl, List.take_succ_cons]
    · rw [if_neg (by simp only [List.length_cons]; omega)]
      rw [List.take_of_length_le
        (show (file.drop (pos + 1)).length ≤ 31 from by omega)]

/-- C9 counterexample: `path32` has a 32-byte filename component after
its last `/`; truncation "to at most 32 bytes" would keep it intact,
but `getValidFile` cuts it to 31 bytes. -/
theorem getValidFile_cuts_32_byte_filename :
    (path32.drop 2).length = 32 ∧ getValidFile path32 ≠ path32 := by
  constructor
  · decide
  · decide

/-- C9 witness: the amended normalisation at the concrete `path32`,
whose last `/` is at index 1. -/
theorem getValidFile_truncates_filename_to_31_witness :
    lastSlashIdx path32 = some 1 ∧
    getValidFile path32
      = path32.take 1 ++ '/' :: (path32.drop 2).take 31 :=
  ⟨by decide, (getValidFile_truncates_filename_to_31 path32).2 1 (by decide)⟩

/-- C10: a non-empty key of length ≠ 32 makes `writeFile` fail without
writing ciphertext, but the `std::ofstream` constructor has already
truncated the file, so a pre-existing file is left at zero length (not
unchanged): the `InvalidKey` refusal is not atomic w.r.t. the file. -/
theorem writeFile_invalid_key_truncates
    (enc : List Nat → List Nat → List Nat) (encOK : Bool)
    (prior ss key : List Nat)
    (hk : key ≠ []) (hlen : key.length ≠ 32) :
    writeFile enc encOK true (some prior) ss key = (false, some []) := by
  unfold writeFile
  rw [if_neg (by simp)]
  dsimp only
  rw [if_pos hk, show AESNODE_DEFAULT_KEY_LENGTH_BYTES = 32 from rfl,
    if_pos hlen]

/-- C10 witness: a 3-byte key against a pre-existing non-empty file. -/
theorem writeFile_invalid_key_truncates_witness :
    ([3, 3, 3] : List Nat) ≠ [] ∧ ([3, 3, 3] : List Nat).length ≠ 32 ∧
    writeFile encId true true (some [7, 7, 7]) [1, 2] [3, 3, 3]
      = (false, some []) :=
  ⟨by decide, by decide,
    writeFile_invalid_key_truncates encId true [7, 7, 7] [1, 2] [3, 3, 3]
      (by decide) (by decide)⟩
